import Mathlib

/-
A shallow embedding of the smallnest/ringbuffer package (ring_buffer.go).

The Go code guards all state with one mutex; every public operation runs its
body while holding the lock.  The embedding models the state under the lock as
a plain structure and each operation as a pure state transformer, which is the
sequential (single-caller) semantics of the locked code.  The condition
variables, the wait-group, the timeout machinery and the goroutine-racing in
waitRead/waitWrite are concurrency devices with no effect on the sequential
state transition and are not represented; operations that would wait
(blocking mode on empty/full) are modelled on their non-waiting paths only,
and theorems about them carry a `block = false` hypothesis except where the Go
function returns before ever reaching its wait loop (the zero-length paths).

Go byte slices are `List Nat`; `copy(dst[start:], src)` is `goCopy`;
`b[a:c]` is `subList b a c`; Go errors are the inductive `GoError`, with
`none : Option GoError` standing for a nil error.
-/

namespace Ringbuffer

/-- The error values of the package (ring_buffer.go lines 17-38), io.EOF,
context.DeadlineExceeded and io.ErrClosedPipe; `external code` stands for an
arbitrary caller-supplied error passed to CloseWithError. -/
inductive GoError where
  | errTooMuchDataToWrite
  | errIsFull
  | errIsEmpty
  | errIsNotEmpty
  | errAcquireLock
  | errWriteOnClosed
  | errReaderClosed
  | eof
  | deadlineExceeded
  | errClosedPipe
  | external (code : Nat)
deriving DecidableEq, Repr

/-- The RingBuffer struct (ring_buffer.go lines 44-57): backing byte slice,
its size, the read and write cursors, the full flag, the sticky error slot and
the blocking-mode flag.  The mutex, wait group and condition variables are
concurrency machinery with no sequential state. -/
structure RingBuffer where
  buf : List Nat
  size : Nat
  r : Nat
  w : Nat
  isFull : Bool
  err : Option GoError
  block : Bool
deriving DecidableEq, Repr

/-- New (lines 60-65): a zeroed buffer of the given size. -/
def New (size : Nat) : RingBuffer :=
  { buf := List.replicate size 0, size := size, r := 0, w := 0,
    isFull := false, err := none, block := false }

/-- The Go slice expression b[a:c] as a list. -/
def subList (l : List Nat) (a c : Nat) : List Nat :=
  (l.take c).drop a

/-- The Go builtin copy(dst[start:], src): overwrites dst from position start
with min (dst.length - start) src.length elements of src. -/
def goCopy (dst : List Nat) (start : Nat) (src : List Nat) : List Nat :=
  let m := min src.length (dst.length - start)
  dst.take start ++ src.take m ++ dst.drop (start + m)

/-- readErr (lines 136-151): the error a read-side operation observes.  A
stored io.EOF surfaces only once the buffer is drained. -/
def readErr (rb : RingBuffer) : Option GoError :=
  match rb.err with
  | some e =>
    if e = GoError.eof then
      if rb.w = rb.r ∧ rb.isFull = false then some GoError.eof else none
    else some e
  | none => none

/-- The transient internal signals of setErr's switch (lines 122-124): nil,
ErrIsEmpty, ErrIsFull, ErrAcquireLock, ErrTooMuchDataToWrite, ErrIsNotEmpty. -/
def isTransient : Option GoError → Bool
  | none => true
  | some GoError.errIsEmpty => true
  | some GoError.errIsFull => true
  | some GoError.errAcquireLock => true
  | some GoError.errTooMuchDataToWrite => true
  | some GoError.errIsNotEmpty => true
  | _ => false

/-- setErr (lines 113-134): returns the updated buffer and the error value the
Go function returns.  A stored non-EOF error is kept; transient signals are
returned without being stored; anything else is stored. -/
def setErr (rb : RingBuffer) (e : Option GoError) : RingBuffer × Option GoError :=
  if rb.err ≠ none ∧ rb.err ≠ some GoError.eof then (rb, rb.err)
  else if isTransient e then (rb, e)
  else ({ rb with err := e }, e)

/-- read (lines 211-244): copy up to plen occupied bytes starting at the read
cursor (two segments when the run wraps), advance the cursor modulo size and
clear the full flag on the wrap branch.  Returns the new state, the bytes
copied out, their count and the returned error. -/
def read (rb : RingBuffer) (plen : Nat) : RingBuffer × List Nat × Nat × Option GoError :=
  if rb.w = rb.r ∧ rb.isFull = false then (rb, [], 0, some GoError.errIsEmpty)
  else if rb.r < rb.w then
    let n := min (rb.w - rb.r) plen
    ({ rb with r := (rb.r + n) % rb.size }, subList rb.buf rb.r (rb.r + n), n, none)
  else
    let n := min (rb.size - rb.r + rb.w) plen
    let bytes :=
      if rb.r + n ≤ rb.size then subList rb.buf rb.r (rb.r + n)
      else subList rb.buf rb.r rb.size ++ subList rb.buf 0 (n - (rb.size - rb.r))
    let rb2 : RingBuffer := { rb with r := (rb.r + n) % rb.size, isFull := false }
    (rb2, bytes, n, readErr rb2)

/-- peek (lines 917-946): read's copy logic with no state change. -/
def peek (rb : RingBuffer) (plen : Nat) : List Nat × Nat × Option GoError :=
  if rb.w = rb.r ∧ rb.isFull = false then ([], 0, some GoError.errIsEmpty)
  else if rb.r < rb.w then
    let n := min (rb.w - rb.r) plen
    (subList rb.buf rb.r (rb.r + n), n, none)
  else
    let n := min (rb.size - rb.r + rb.w) plen
    let bytes :=
      if rb.r + n ≤ rb.size then subList rb.buf rb.r (rb.r + n)
      else subList rb.buf rb.r rb.size ++ subList rb.buf 0 (n - (rb.size - rb.r))
    (bytes, n, readErr rb)

/-- The avail computation of write (lines 582-587): the free space. -/
def availOf (rb : RingBuffer) : Nat :=
  if rb.r ≤ rb.w then rb.size - rb.w + rb.r else rb.r - rb.w

/-- The truncation of write (lines 589-592): the part of p actually copied. -/
def qOf (rb : RingBuffer) (p : List Nat) : List Nat :=
  if availOf rb < p.length then p.take (availOf rb) else p

/-- The write cursor after write's copy loop (lines 595-609), before the
wrap check. -/
def w1Of (rb : RingBuffer) (p : List Nat) : Nat :=
  if rb.r ≤ rb.w then
    if (qOf rb p).length ≤ rb.size - rb.w then rb.w + (qOf rb p).length
    else (qOf rb p).length - (rb.size - rb.w)
  else rb.w + (qOf rb p).length

/-- The write cursor after write's wrap check (lines 611-613). -/
def w2Of (rb : RingBuffer) (p : List Nat) : Nat :=
  if w1Of rb p = rb.size then 0 else w1Of rb p

/-- The backing slice after write's one- or two-segment copy
(lines 595-609). -/
def buf1Of (rb : RingBuffer) (p : List Nat) : List Nat :=
  if rb.r ≤ rb.w then
    if (qOf rb p).length ≤ rb.size - rb.w then goCopy rb.buf rb.w (qOf rb p)
    else
      goCopy (goCopy rb.buf rb.w ((qOf rb p).take (rb.size - rb.w))) 0
        ((qOf rb p).drop (rb.size - rb.w))
  else goCopy rb.buf rb.w (qOf rb p)

/-- write (lines 577-619): reject when full, truncate to the available space
with ErrTooMuchDataToWrite, copy in at most two segments at the write cursor
(buf1Of/w1Of), wrap the cursor (w2Of) and set the full flag when the cursors
meet. -/
def write (rb : RingBuffer) (p : List Nat) : RingBuffer × Nat × Option GoError :=
  if rb.isFull then (rb, 0, some GoError.errIsFull)
  else
    ({ rb with buf := buf1Of rb p, w := w2Of rb p,
               isFull := if w2Of rb p = rb.r then true else rb.isFull },
      (qOf rb p).length,
      if availOf rb < p.length then some GoError.errTooMuchDataToWrite else none)

/-- writeByte (lines 666-684): the single-byte write used by WriteByte and
TryWriteByte; checks the sticky error and the full flag, stores one byte and
advances the write cursor. -/
def writeByte (rb : RingBuffer) (c : Nat) : RingBuffer × Option GoError :=
  if rb.err ≠ none then (rb, rb.err)
  else if rb.w = rb.r ∧ rb.isFull then (rb, some GoError.errIsFull)
  else
    let w1 := rb.w + 1
    let w2 := if w1 = rb.size then 0 else w1
    let full2 := if w2 = rb.r then true else rb.isFull
    ({ rb with buf := rb.buf.set rb.w c, w := w2, isFull := full2 }, none)

/-- Length (lines 687-703): the number of occupied bytes. -/
def Length (rb : RingBuffer) : Nat :=
  if rb.w = rb.r then (if rb.isFull then rb.size else 0)
  else if rb.r < rb.w then rb.w - rb.r
  else rb.size - rb.r + rb.w

/-- Capacity (lines 706-708). -/
def Capacity (rb : RingBuffer) : Nat := rb.size

/-- Free (lines 711-727): the number of free bytes. -/
def Free (rb : RingBuffer) : Nat :=
  if rb.w = rb.r then (if rb.isFull then 0 else rb.size)
  else if rb.w < rb.r then rb.r - rb.w
  else rb.size - rb.w + rb.r

/-- IsFull (lines 783-788). -/
def IsFull (rb : RingBuffer) : Bool := rb.isFull

/-- IsEmpty (lines 791-796). -/
def IsEmpty (rb : RingBuffer) : Bool := !rb.isFull && (rb.w == rb.r)

/-- Bytes (lines 741-780): all occupied bytes in read order, without moving
the read cursor.  (The single-copy conditional of the wrap branch in the
source is dead there, since r + (size - r + w) is never below size; the two
live copies are transcribed.) -/
def Bytes (rb : RingBuffer) : List Nat :=
  if rb.w = rb.r then
    if rb.isFull then subList rb.buf rb.r rb.size ++ subList rb.buf 0 rb.w
    else []
  else if rb.r < rb.w then subList rb.buf rb.r rb.w
  else subList rb.buf rb.r rb.size ++ subList rb.buf 0 rb.w

/-- Read (lines 160-187) on its non-waiting paths: the zero-length early
return (taken in every mode before the wait loop), the sticky-error return,
and a single pass of read.  In blocking mode with a non-empty destination the
Go function may instead loop in its wait state, so theorems about that case
carry a block = false hypothesis. -/
def Read (rb : RingBuffer) (plen : Nat) : RingBuffer × List Nat × Nat × Option GoError :=
  if plen = 0 then (rb, [], 0, readErr rb)
  else if readErr rb ≠ none then (rb, [], 0, readErr rb)
  else read rb plen

/-- TryRead (lines 191-209) when it acquires the lock: unlike Read, the
sticky-error check comes before the zero-length check, and there is never a
wait loop. -/
def TryRead (rb : RingBuffer) (plen : Nat) : RingBuffer × List Nat × Nat × Option GoError :=
  if readErr rb ≠ none then (rb, [], 0, readErr rb)
  else if plen = 0 then (rb, [], 0, readErr rb)
  else read rb plen

/-- ReadByte (lines 284-311) on its non-waiting paths: sticky-error check,
the empty case (ErrIsEmpty when not blocking; the blocking wait is not
modelled), then one byte read; the byte is returned with readErr of the new
state. -/
def ReadByte (rb : RingBuffer) : RingBuffer × Nat × Option GoError :=
  if readErr rb ≠ none then (rb, 0, readErr rb)
  else if rb.w = rb.r ∧ rb.isFull = false then (rb, 0, some GoError.errIsEmpty)
  else
    let b := rb.buf.getD rb.r 0
    let r1 := rb.r + 1
    let r2 := if r1 = rb.size then 0 else r1
    let rb2 : RingBuffer := { rb with r := r2, isFull := false }
    (rb2, b, readErr rb2)

/-- Write (lines 319-353) on its non-waiting paths: the zero-length early
return through setErr nil (taken in every mode), the sticky-error return with
io.EOF translated to ErrWriteOnClosed, and a single pass of write whose error
is filtered through setErr.  The retry loop only runs in blocking mode, so
theorems about non-empty writes carry a block = false hypothesis. -/
def Write (rb : RingBuffer) (p : List Nat) : RingBuffer × Nat × Option GoError :=
  if p.length = 0 then
    let pr := setErr rb none
    (pr.1, 0, pr.2)
  else
    match rb.err with
    | some e =>
      (rb, 0, if e = GoError.eof then some GoError.errWriteOnClosed else some e)
    | none =>
      let t := write rb p
      let pr := setErr t.1 t.2.2
      (pr.1, t.2.1, pr.2)

/-- TryWrite (lines 554-575) when it acquires the lock: same checks as Write
and a single pass of write with no retry loop in any mode. -/
def TryWrite (rb : RingBuffer) (p : List Nat) : RingBuffer × Nat × Option GoError :=
  if p.length = 0 then
    let pr := setErr rb none
    (pr.1, 0, pr.2)
  else
    match rb.err with
    | some e =>
      (rb, 0, if e = GoError.eof then some GoError.errWriteOnClosed else some e)
    | none =>
      let t := write rb p
      let pr := setErr t.1 t.2.2
      (pr.1, t.2.1, pr.2)

/-- WriteByte (lines 622-642) on its non-waiting paths: sticky-error return
with io.EOF translated, then one writeByte pass (the retry loop only runs in
blocking mode). -/
def WriteByte (rb : RingBuffer) (c : Nat) : RingBuffer × Option GoError :=
  match rb.err with
  | some e =>
    (rb, if e = GoError.eof then some GoError.errWriteOnClosed else some e)
  | none => writeByte rb c

/-- TryWriteByte (lines 646-664) when it acquires the lock. -/
def TryWriteByte (rb : RingBuffer) (c : Nat) : RingBuffer × Option GoError :=
  match rb.err with
  | some e =>
    (rb, if e = GoError.eof then some GoError.errWriteOnClosed else some e)
  | none => writeByte rb c

/-- Peek (lines 903-915): zero-length early return, sticky-error check, then
peek; the state is never changed. -/
def Peek (rb : RingBuffer) (plen : Nat) : RingBuffer × List Nat × Nat × Option GoError :=
  if plen = 0 then (rb, [], 0, readErr rb)
  else if readErr rb ≠ none then (rb, [], 0, readErr rb)
  else
    let t := peek rb plen
    (rb, t.1, t.2.1, t.2.2)

/-- CloseWithError (lines 803-808): a nil argument becomes io.EOF, then
setErr stores it. -/
def CloseWithError (rb : RingBuffer) (e : Option GoError) : RingBuffer :=
  let e2 := match e with
    | none => some GoError.eof
    | some x => some x
  (setErr rb e2).1

/-- CloseWriter (lines 812-814). -/
def CloseWriter (rb : RingBuffer) : RingBuffer :=
  (setErr rb (some GoError.eof)).1

/-- Reset (lines 845-864): after the in-flight operations have drained, the
cursors, the full flag and the sticky error are rewound. -/
def Reset (rb : RingBuffer) : RingBuffer :=
  { rb with r := 0, w := 0, err := none, isFull := false }

/-- Modelled from the spec: the eviction step of overwrite mode, discarding
the d oldest unread bytes by advancing the read cursor forward by exactly d
(mod capacity) and clearing the full flag (spec section 4.2). -/
def evict (rb : RingBuffer) (d : Nat) : RingBuffer :=
  { rb with r := (rb.r + d) % rb.size, isFull := false }

/-- Modelled from the spec: the overwrite-mode variant of write.  The
repository's tests call `SetOverwrite(true)` and rely on an overwrite branch
inside `write`, but that code is not among the sources; per spec section 4.2,
when the incoming data would not fit, the oldest bytes are discarded by
advancing the read cursor forward by exactly the overflow amount (mod
capacity) before the normal write-copy, and a payload larger than the
capacity itself keeps only its last `capacity` bytes, discarding the entire
previous content.  In this mode write reports neither full nor
too-much-data. -/
def writeOverwrite (rb : RingBuffer) (p : List Nat) : RingBuffer × Nat × Option GoError :=
  if rb.size < p.length then
    ({ rb with buf := p.drop (p.length - rb.size), r := 0, w := 0, isFull := true },
      p.length, none)
  else if Free rb < p.length then write (evict rb (p.length - Free rb)) p
  else write rb p

/-- Modelled from the spec: Write on a buffer with overwrite mode enabled.
The wrapper checks of Write (zero-length early return, sticky error
translation) are unchanged; the core call goes through the overwrite-mode
write, whose errors are always nil so the blocking retry loop never runs. -/
def WriteOverwrite (rb : RingBuffer) (p : List Nat) : RingBuffer × Nat × Option GoError :=
  if p.length = 0 then
    let pr := setErr rb none
    (pr.1, 0, pr.2)
  else
    match rb.err with
    | some e =>
      (rb, 0, if e = GoError.eof then some GoError.errWriteOnClosed else some e)
    | none =>
      let t := writeOverwrite rb p
      let pr := setErr t.1 t.2.2
      (pr.1, t.2.1, pr.2)

/-- One public operation of the claims' alphabet. -/
inductive Op where
  | opRead (plen : Nat)
  | opTryRead (plen : Nat)
  | opWrite (p : List Nat)
  | opTryWrite (p : List Nat)
  | opReadByte
  | opWriteByte (c : Nat)
  | opPeek (plen : Nat)
deriving DecidableEq, Repr

/-- The state transition of one operation. -/
def applyOp (rb : RingBuffer) (op : Op) : RingBuffer :=
  match op with
  | Op.opRead plen => (Read rb plen).1
  | Op.opTryRead plen => (TryRead rb plen).1
  | Op.opWrite p => (Write rb p).1
  | Op.opTryWrite p => (TryWrite rb p).1
  | Op.opReadByte => (ReadByte rb).1
  | Op.opWriteByte c => (WriteByte rb c).1
  | Op.opPeek plen => (Peek rb plen).1

/-- Run a sequence of operations. -/
def run (rb : RingBuffer) (ops : List Op) : RingBuffer :=
  ops.foldl applyOp rb

/-- The structural invariant of a live buffer: the backing slice has the
declared size, both cursors are inside it, and the full flag implies that the
cursors coincide. -/
def WF (rb : RingBuffer) : Prop :=
  rb.buf.length = rb.size ∧ rb.r < rb.size ∧ rb.w < rb.size ∧
    (rb.isFull = true → rb.r = rb.w)

instance (rb : RingBuffer) : Decidable (WF rb) := by
  unfold WF; infer_instance

lemma mod_two_cases (a s : Nat) (h : a < 2 * s) :
    a % s = if a < s then a else a - s := by
  split
  · exact Nat.mod_eq_of_lt (by omega)
  · rw [Nat.mod_eq_sub_mod (by omega), Nat.mod_eq_of_lt (by omega)]

lemma goCopy_length (dst : List Nat) (start : Nat) (src : List Nat) :
    (goCopy dst start src).length = dst.length := by
  simp only [goCopy, List.length_append, List.length_take, List.length_drop]
  omega

lemma goCopy_fits (dst : List Nat) (start : Nat) (src : List Nat)
    (h : start + src.length ≤ dst.length) :
    goCopy dst start src = dst.take start ++ src ++ dst.drop (start + src.length) := by
  simp only [goCopy]
  rw [min_eq_left (by omega), List.take_of_length_le (le_refl _)]

lemma subList_eq (l : List Nat) (a c : Nat) :
    subList l a c = (l.drop a).take (c - a) := by
  simp only [subList, List.drop_take]

lemma subList_all (l : List Nat) (a : Nat) (h : l.length ≤ a) : l.take a = l :=
  List.take_of_length_le h

lemma getD_head (l : List Nat) (r : Nat) (h : r < l.length) :
    (l.drop r).take 1 = [l.getD r 0] := by
  induction l generalizing r with
  | nil => simp at h
  | cons x xs ih =>
    cases r with
    | zero => simp [List.getD]
    | succ m =>
      simp only [List.drop_succ_cons, List.getD_cons_succ]
      exact ih m (by simpa using Nat.lt_of_succ_lt_succ (by simpa using h))

lemma subList_singleton (l : List Nat) (r : Nat) (h : r < l.length) :
    subList l r (r + 1) = [l.getD r 0] := by
  rw [subList_eq, Nat.add_sub_cancel_left, getD_head l r h]

lemma goCopy_singleton (dst : List Nat) (w c : Nat) (h : w < dst.length) :
    goCopy dst w [c] = dst.set w c := by
  rw [goCopy_fits dst w [c] (by simpa using h), List.set_eq_take_cons_drop c h]
  simp

lemma wrap_eq_mod (a s : Nat) (h : a ≤ s) :
    (if a = s then 0 else a) = a % s := by
  rcases eq_or_lt_of_le h with h1 | h1
  · simp [h1]
  · rw [if_neg (by omega), Nat.mod_eq_of_lt h1]

lemma wf_setErr (rb : RingBuffer) (e : Option GoError) (h : WF rb) :
    WF (setErr rb e).1 := by
  unfold setErr
  split
  · exact h
  · split
    · exact h
    · exact h

lemma wf_read (rb : RingBuffer) (plen : Nat) (h : WF rb) : WF (read rb plen).1 := by
  obtain ⟨hb, hr, hw, hf⟩ := h
  unfold read
  split
  · exact ⟨hb, hr, hw, hf⟩
  · split
    · refine ⟨hb, Nat.mod_lt _ (by omega), hw, ?_⟩
      intro hfl
      have := hf hfl
      omega
    · exact ⟨hb, Nat.mod_lt _ (by omega), hw, by simp⟩

lemma qOf_length_le (rb : RingBuffer) (p : List Nat) :
    (qOf rb p).length ≤ availOf rb := by
  unfold qOf
  split
  · simp only [List.length_take]
    omega
  · omega

lemma qOf_length_le_self (rb : RingBuffer) (p : List Nat) :
    (qOf rb p).length ≤ p.length := by
  unfold qOf
  split
  · simp only [List.length_take]
    omega
  · omega

lemma qOf_of_le (rb : RingBuffer) (p : List Nat) (h : p.length ≤ availOf rb) :
    qOf rb p = p := by
  unfold qOf
  rw [if_neg (by omega)]

lemma w1Of_le_size (rb : RingBuffer) (p : List Nat) (h : WF rb) :
    w1Of rb p ≤ rb.size := by
  obtain ⟨hb, hr, hw, hf⟩ := h
  have hq := qOf_length_le rb p
  unfold availOf at hq
  unfold w1Of
  split_ifs at hq ⊢ <;> omega

lemma w2Of_lt_size (rb : RingBuffer) (p : List Nat) (h : WF rb) :
    w2Of rb p < rb.size := by
  have h1 := w1Of_le_size rb p h
  obtain ⟨hb, hr, hw, hf⟩ := h
  unfold w2Of
  split <;> omega

lemma buf1Of_length (rb : RingBuffer) (p : List Nat) :
    (buf1Of rb p).length = rb.buf.length := by
  unfold buf1Of
  split
  · split <;> simp only [goCopy_length]
  · simp only [goCopy_length]

lemma wf_write (rb : RingBuffer) (p : List Nat) (h : WF rb) : WF (write rb p).1 := by
  unfold write
  split
  · exact h
  · rename_i hful
    obtain ⟨hb, hr, hw, hf⟩ := h
    refine ⟨by simpa [buf1Of_length] using hb, hr, w2Of_lt_size rb p ⟨hb, hr, hw, hf⟩, ?_⟩
    intro hfl
    dsimp only at hfl ⊢
    split at hfl
    · rename_i he
      exact he.symm
    · rw [hfl] at hful
      exact absurd rfl hful

lemma wf_writeByte (rb : RingBuffer) (c : Nat) (h : WF rb) : WF (writeByte rb c).1 := by
  obtain ⟨hb, hr, hw, hf⟩ := h
  unfold writeByte
  split
  · exact ⟨hb, hr, hw, hf⟩
  · split
    · exact ⟨hb, hr, hw, hf⟩
    · rename_i hg
      refine ⟨by simp [hb], hr, ?_, ?_⟩
      · dsimp only
        split <;> omega
      · dsimp only
        intro hfl
        by_cases hwr : (if rb.w + 1 = rb.size then 0 else rb.w + 1) = rb.r
        · exact hwr.symm
        · rw [if_neg hwr] at hfl
          exact absurd ⟨(hf hfl).symm, hfl⟩ hg

lemma wf_ReadByte (rb : RingBuffer) (h : WF rb) : WF (ReadByte rb).1 := by
  obtain ⟨hb, hr, hw, hf⟩ := h
  unfold ReadByte
  split
  · exact ⟨hb, hr, hw, hf⟩
  · split
    · exact ⟨hb, hr, hw, hf⟩
    · refine ⟨hb, ?_, hw, by simp⟩
      dsimp only
      split <;> omega

lemma wf_Read (rb : RingBuffer) (plen : Nat) (h : WF rb) : WF (Read rb plen).1 := by
  unfold Read
  split
  · exact h
  · split
    · exact h
    · exact wf_read rb plen h

lemma wf_TryRead (rb : RingBuffer) (plen : Nat) (h : WF rb) : WF (TryRead rb plen).1 := by
  unfold TryRead
  split
  · exact h
  · split
    · exact h
    · exact wf_read rb plen h

lemma wf_Write (rb : RingBuffer) (p : List Nat) (h : WF rb) : WF (Write rb p).1 := by
  unfold Write
  split
  · exact wf_setErr rb none h
  · split
    · exact h
    · exact wf_setErr _ _ (wf_write rb p h)

lemma wf_TryWrite (rb : RingBuffer) (p : List Nat) (h : WF rb) : WF (TryWrite rb p).1 := by
  unfold TryWrite
  split
  · exact wf_setErr rb none h
  · split
    · exact h
    · exact wf_setErr _ _ (wf_write rb p h)

lemma wf_WriteByte (rb : RingBuffer) (c : Nat) (h : WF rb) : WF (WriteByte rb c).1 := by
  unfold WriteByte
  split
  · exact h
  · exact wf_writeByte rb c h

lemma wf_Peek (rb : RingBuffer) (plen : Nat) (h : WF rb) : WF (Peek rb plen).1 := by
  unfold Peek
  split
  · exact h
  · split
    · exact h
    · exact h

lemma wf_applyOp (rb : RingBuffer) (op : Op) (h : WF rb) : WF (applyOp rb op) := by
  cases op with
  | opRead plen => exact wf_Read rb plen h
  | opTryRead plen => exact wf_TryRead rb plen h
  | opWrite p => exact wf_Write rb p h
  | opTryWrite p => exact wf_TryWrite rb p h
  | opReadByte => exact wf_ReadByte rb h
  | opWriteByte c => exact wf_WriteByte rb c h
  | opPeek plen => exact wf_Peek rb plen h

lemma wf_run (rb : RingBuffer) (ops : List Op) (h : WF rb) : WF (run rb ops) := by
  induction ops generalizing rb with
  | nil => exact h
  | cons op rest ih => exact ih (applyOp rb op) (wf_applyOp rb op h)

lemma setErr_size (rb : RingBuffer) (e : Option GoError) : (setErr rb e).1.size = rb.size := by
  unfold setErr
  split
  · rfl
  · split <;> rfl

lemma read_size (rb : RingBuffer) (plen : Nat) : (read rb plen).1.size = rb.size := by
  unfold read
  split
  · rfl
  · split <;> rfl

lemma write_size (rb : RingBuffer) (p : List Nat) : (write rb p).1.size = rb.size := by
  unfold write
  split <;> rfl

lemma writeByte_size (rb : RingBuffer) (c : Nat) : (writeByte rb c).1.size = rb.size := by
  unfold writeByte
  split
  · rfl
  · split <;> rfl

lemma applyOp_size (rb : RingBuffer) (op : Op) : (applyOp rb op).size = rb.size := by
  cases op with
  | opRead plen =>
    show (Read rb plen).1.size = rb.size
    unfold Read
    split
    · rfl
    · split
      · rfl
      · exact read_size rb plen
  | opTryRead plen =>
    show (TryRead rb plen).1.size = rb.size
    unfold TryRead
    split
    · rfl
    · split
      · rfl
      · exact read_size rb plen
  | opWrite p =>
    show (Write rb p).1.size = rb.size
    unfold Write
    split
    · exact setErr_size rb none
    · split
      · rfl
      · rw [setErr_size, write_size]
  | opTryWrite p =>
    show (TryWrite rb p).1.size = rb.size
    unfold TryWrite
    split
    · exact setErr_size rb none
    · split
      · rfl
      · rw [setErr_size, write_size]
  | opReadByte =>
    show (ReadByte rb).1.size = rb.size
    unfold ReadByte
    split
    · rfl
    · split <;> rfl
  | opWriteByte c =>
    show (WriteByte rb c).1.size = rb.size
    unfold WriteByte
    split
    · rfl
    · exact writeByte_size rb c
  | opPeek plen =>
    show (Peek rb plen).1.size = rb.size
    unfold Peek
    split
    · rfl
    · split <;> rfl

lemma run_size (rb : RingBuffer) (ops : List Op) : (run rb ops).size = rb.size := by
  induction ops generalizing rb with
  | nil => rfl
  | cons op rest ih => rw [run, List.foldl_cons, ← run, ih, applyOp_size]

lemma wf_New (c : Nat) (hc : 0 < c) : WF (New c) := by
  refine ⟨by simp [New], by simpa [New] using hc, by simpa [New] using hc, by simp [New]⟩

lemma Length_le_size (rb : RingBuffer) (h : WF rb) : Length rb ≤ rb.size := by
  obtain ⟨hb, hr, hw, hf⟩ := h
  unfold Length
  split_ifs <;> omega

lemma Free_add_Length (rb : RingBuffer) (h : WF rb) : Free rb + Length rb = rb.size := by
  obtain ⟨hb, hr, hw, hf⟩ := h
  unfold Free Length
  split_ifs <;> omega

lemma int_emod_toNat (w r c : Nat) (hrc : r < c) (hwc : w < c) (hne : w ≠ r) :
    (((w : Int) - (r : Int)) % (c : Int)).toNat = if r < w then w - r else c - r + w := by
  split
  · rw [Int.emod_eq_of_lt (by omega) (by omega)]
    omega
  · have h5 : ((w : Int) - (r : Int) + (c : Int) * 1) % (c : Int)
        = ((w : Int) - (r : Int)) % (c : Int) := Int.add_mul_emod_self_left _ _ _
    rw [mul_one] at h5
    rw [← h5, Int.emod_eq_of_lt (by omega) (by omega)]
    omega

/-- C2: starting from a buffer of capacity c > 0, after any sequence of Read,
Write, TryRead, TryWrite, ReadByte, WriteByte and Peek operations both
cursors stay inside [0, c), the occupied length is between 0 and c, and
Length equals the write cursor minus the read cursor modulo c when the
cursors differ, c when they coincide with the full flag set and 0 when they
coincide with the flag clear. -/
theorem C2_capacity_invariant (c : Nat) (ops : List Op) (hc : 0 < c) :
    (run (New c) ops).r < c ∧ (run (New c) ops).w < c ∧
    Length (run (New c) ops) ≤ c ∧
    Length (run (New c) ops) =
      (if (run (New c) ops).w = (run (New c) ops).r then
        (if (run (New c) ops).isFull then c else 0)
       else ((((run (New c) ops).w : Int) - ((run (New c) ops).r : Int)) %
         (c : Int)).toNat) := by
  have hwf := wf_run (New c) ops (wf_New c hc)
  have hsc : (run (New c) ops).size = c := by
    simpa [New] using run_size (New c) ops
  have hlen := Length_le_size (run (New c) ops) hwf
  obtain ⟨hb, hr, hwlt, hf⟩ := hwf
  refine ⟨by omega, by omega, by omega, ?_⟩
  by_cases hwr : (run (New c) ops).w = (run (New c) ops).r
  · rw [if_pos hwr]
    unfold Length
    rw [if_pos hwr]
    split <;> omega
  · rw [if_neg hwr, int_emod_toNat _ _ c (by omega) (by omega) hwr]
    unfold Length
    rw [if_neg hwr]
    split
    · rfl
    · omega

theorem C2_capacity_invariant_witness :
    0 < 2 ∧
    ((run (New 2) [Op.opWrite [5]]).r < 2 ∧ (run (New 2) [Op.opWrite [5]]).w < 2 ∧
     Length (run (New 2) [Op.opWrite [5]]) ≤ 2 ∧
     Length (run (New 2) [Op.opWrite [5]]) =
       (if (run (New 2) [Op.opWrite [5]]).w = (run (New 2) [Op.opWrite [5]]).r then
         (if (run (New 2) [Op.opWrite [5]]).isFull then 2 else 0)
        else ((((run (New 2) [Op.opWrite [5]]).w : Int) -
          ((run (New 2) [Op.opWrite [5]]).r : Int)) % (2 : Int)).toNat)) :=
  ⟨by decide, C2_capacity_invariant 2 [Op.opWrite [5]] (by decide)⟩

/-- C7: for every state reachable from a fresh buffer of capacity c > 0,
IsFull and IsEmpty are never simultaneously true, and both are false whenever
0 < Length < c. -/
theorem C7_full_empty_disjoint (c : Nat) (ops : List Op) (hc : 0 < c) :
    ¬(IsFull (run (New c) ops) = true ∧ IsEmpty (run (New c) ops) = true) ∧
    (0 < Length (run (New c) ops) → Length (run (New c) ops) < c →
      IsFull (run (New c) ops) = false ∧ IsEmpty (run (New c) ops) = false) := by
  have hwf := wf_run (New c) ops (wf_New c hc)
  have hsc : (run (New c) ops).size = c := by
    simpa [New] using run_size (New c) ops
  obtain ⟨hb, hr, hwlt, hf⟩ := hwf
  constructor
  · rintro ⟨h1, h2⟩
    unfold IsFull at h1
    unfold IsEmpty at h2
    rw [h1] at h2
    simp at h2
  · intro hl1 hl2
    constructor
    · unfold IsFull
      cases hful : (run (New c) ops).isFull
      · rfl
      · exfalso
        have hrw := hf hful
        unfold Length at hl1 hl2
        rw [if_pos hrw.symm, if_pos hful] at hl2
        omega
    · unfold IsEmpty
      cases hful : (run (New c) ops).isFull
      · simp only [Bool.not_false, Bool.true_and]
        by_cases hwr : (run (New c) ops).w = (run (New c) ops).r
        · exfalso
          unfold Length at hl1
          rw [if_pos hwr, hful] at hl1
          simp at hl1
        · simp [hwr]
      · simp

theorem C7_full_empty_disjoint_witness :
    0 < 2 ∧
    (¬(IsFull (run (New 2) [Op.opWrite [5]]) = true ∧
        IsEmpty (run (New 2) [Op.opWrite [5]]) = true) ∧
     (0 < Length (run (New 2) [Op.opWrite [5]]) →
       Length (run (New 2) [Op.opWrite [5]]) < 2 →
       IsFull (run (New 2) [Op.opWrite [5]]) = false ∧
       IsEmpty (run (New 2) [Op.opWrite [5]]) = false)) :=
  ⟨by decide, C7_full_empty_disjoint 2 [Op.opWrite [5]] (by decide)⟩

/-- C5 counterexample: after CloseWithError(nil) stores the end-of-stream
sentinel io.EOF, a later CloseWithError with a different terminal error is
not a no-op: setErr's guard (line 118) deliberately lets a non-EOF error
replace a stored io.EOF, and subsequent reads fail with the replacement. -/
theorem C5_counterexample :
    (CloseWithError (CloseWithError (New 1) none) (some (GoError.external 0))).err
      = some (GoError.external 0) ∧
    (Read (CloseWithError (CloseWithError (New 1) none)
      (some (GoError.external 0))) 1).2.2.2 = some (GoError.external 0) ∧
    some (GoError.external 0) ≠ some GoError.eof := by decide

/-- C5 amended: for every pair of terminal errors e1 and e2 where e1 is NOT
the end-of-stream sentinel, once CloseWithError(e1) has stored e1, a later
CloseWithError(e2) is a no-op and every subsequent read and write keeps
failing with e1 until an explicit Reset clears it; when the stored error is
the sentinel io.EOF, a later CloseWithError with a terminal argument replaces
it instead. -/
theorem C5_first_error_wins (rb : RingBuffer) (e1 : GoError) (e2 : Option GoError)
    (plen : Nat) (p : List Nat) (c : Nat)
    (h0 : rb.err = none) (h1 : isTransient (some e1) = false) (h2 : e1 ≠ GoError.eof) :
    (CloseWithError rb (some e1)).err = some e1 ∧
    CloseWithError (CloseWithError rb (some e1)) e2 = CloseWithError rb (some e1) ∧
    (Read (CloseWithError rb (some e1)) plen).2.2.2 = some e1 ∧
    (TryRead (CloseWithError rb (some e1)) plen).2.2.2 = some e1 ∧
    (ReadByte (CloseWithError rb (some e1))).2.2 = some e1 ∧
    (Write (CloseWithError rb (some e1)) p).2.2 = some e1 ∧
    (TryWrite (CloseWithError rb (some e1)) p).2.2 = some e1 ∧
    (WriteByte (CloseWithError rb (some e1)) c).2 = some e1 ∧
    (Reset (CloseWithError rb (some e1))).err = none ∧
    (∀ e3 : GoError, isTransient (some e3) = false →
      (CloseWithError (CloseWriter rb) (some e3)).err = some e3) := by
  have hs1 : CloseWithError rb (some e1) = { rb with err := some e1 } := by
    unfold CloseWithError setErr
    rw [h0]
    simp [h1]
  have hre : readErr { rb with err := some e1 } = some e1 := by
    simp [readErr, h2]
  refine ⟨by rw [hs1], ?_, ?_, ?_, ?_, ?_, ?_, ?_, ?_, ?_⟩
  · rw [hs1]
    unfold CloseWithError setErr
    simp [h2]
  · rw [hs1]
    simp [Read, hre]
  · rw [hs1]
    simp [TryRead, hre]
  · rw [hs1]
    simp [ReadByte, hre]
  · rw [hs1]
    simp [Write, setErr, h2]
  · rw [hs1]
    simp [TryWrite, setErr, h2]
  · rw [hs1]
    simp [WriteByte, h2]
  · rw [hs1]
    simp [Reset]
  · intro e3 h3
    have hcw : CloseWriter rb = { rb with err := some GoError.eof } := by
      unfold CloseWriter setErr
      rw [h0]
      simp [isTransient]
    rw [hcw]
    unfold CloseWithError setErr
    simp [h3]

theorem C5_first_error_wins_witness :
    (New 1).err = none ∧ isTransient (some (GoError.external 1)) = false ∧
    GoError.external 1 ≠ GoError.eof ∧
    ((CloseWithError (New 1) (some (GoError.external 1))).err = some (GoError.external 1) ∧
     CloseWithError (CloseWithError (New 1) (some (GoError.external 1)))
       (some (GoError.external 2)) = CloseWithError (New 1) (some (GoError.external 1)) ∧
     (Read (CloseWithError (New 1) (some (GoError.external 1))) 1).2.2.2
       = some (GoError.external 1) ∧
     (TryRead (CloseWithError (New 1) (some (GoError.external 1))) 1).2.2.2
       = some (GoError.external 1) ∧
     (ReadByte (CloseWithError (New 1) (some (GoError.external 1)))).2.2
       = some (GoError.external 1) ∧
     (Write (CloseWithError (New 1) (some (GoError.external 1))) [9]).2.2
       = some (GoError.external 1) ∧
     (TryWrite (CloseWithError (New 1) (some (GoError.external 1))) [9]).2.2
       = some (GoError.external 1) ∧
     (WriteByte (CloseWithError (New 1) (some (GoError.external 1))) 7).2
       = some (GoError.external 1) ∧
     (Reset (CloseWithError (New 1) (some (GoError.external 1)))).err = none ∧
     (∀ e3 : GoError, isTransient (some e3) = false →
       (CloseWithError (CloseWriter (New 1)) (some e3)).err = some e3)) :=
  ⟨by decide, by decide, by decide,
    C5_first_error_wins (New 1) (GoError.external 1) (some (GoError.external 2))
      1 [9] 7 (by decide) (by decide) (by decide)⟩

/-- C10 counterexample: with the end-of-stream sentinel stored, a zero-length
Write or TryWrite returns a nil error rather than the sticky error, because
setErr(nil) does not report a stored io.EOF. -/
theorem C10_counterexample :
    (CloseWriter (New 2)).err = some GoError.eof ∧
    (Write (CloseWriter (New 2)) []).2.2 = none ∧
    (TryWrite (CloseWriter (New 2)) []).2.2 = none := by decide

/-- C10 amended: zero-length Read, TryRead, Write and TryWrite return (0, nil)
immediately and leave the state unchanged when no sticky error is set, in any
mode; with a non-EOF sticky error set they return it; with the end-of-stream
sentinel set, zero-length writes return nil, and zero-length reads return nil
while data remains and io.EOF once drained. -/
theorem C10_zero_length (rb : RingBuffer) (e : GoError) :
    (rb.err = none →
      Read rb 0 = (rb, [], 0, none) ∧ TryRead rb 0 = (rb, [], 0, none) ∧
      Write rb [] = (rb, 0, none) ∧ TryWrite rb [] = (rb, 0, none)) ∧
    (rb.err = some e → e ≠ GoError.eof →
      Read rb 0 = (rb, [], 0, some e) ∧ TryRead rb 0 = (rb, [], 0, some e) ∧
      Write rb [] = (rb, 0, some e) ∧ TryWrite rb [] = (rb, 0, some e)) ∧
    (rb.err = some GoError.eof →
      Write rb [] = (rb, 0, none) ∧ TryWrite rb [] = (rb, 0, none) ∧
      (¬(rb.w = rb.r ∧ rb.isFull = false) → Read rb 0 = (rb, [], 0, none) ∧
        TryRead rb 0 = (rb, [], 0, none)) ∧
      ((rb.w = rb.r ∧ rb.isFull = false) → Read rb 0 = (rb, [], 0, some GoError.eof) ∧
        TryRead rb 0 = (rb, [], 0, some GoError.eof))) := by
  refine ⟨?_, ?_, ?_⟩
  · intro h0
    have hre : readErr rb = none := by simp [readErr, h0]
    refine ⟨by simp [Read, hre], by simp [TryRead, hre], ?_, ?_⟩
    · simp [Write, setErr, h0, isTransient]
    · simp [TryWrite, setErr, h0, isTransient]
  · intro h0 hne
    have hre : readErr rb = some e := by simp [readErr, h0, hne]
    refine ⟨by simp [Read, hre], by simp [TryRead, hre], ?_, ?_⟩
    · simp [Write, setErr, h0, hne]
    · simp [TryWrite, setErr, h0, hne]
  · intro h0
    refine ⟨by simp [Write, setErr, h0, isTransient], by simp [TryWrite, setErr, h0, isTransient], ?_, ?_⟩
    · intro hnd
      have hre : readErr rb = none := by simp [readErr, h0, hnd]
      exact ⟨by simp [Read, hre], by simp [TryRead, hre]⟩
    · intro hd
      have hre : readErr rb = some GoError.eof := by simp [readErr, h0, hd]
      exact ⟨by simp [Read, hre], by simp [TryRead, hre]⟩

theorem C10_zero_length_witness :
    (New 2).err = none ∧
    (Read (New 2) 0 = (New 2, [], 0, none) ∧ TryRead (New 2) 0 = (New 2, [], 0, none) ∧
     Write (New 2) [] = (New 2, 0, none) ∧ TryWrite (New 2) [] = (New 2, 0, none)) :=
  ⟨by decide, (C10_zero_length (New 2) GoError.eof).1 (by decide)⟩

lemma Length_wrap (rb : RingBuffer) (h : WF rb)
    (hne : ¬(rb.w = rb.r ∧ rb.isFull = false)) (hrw : ¬ rb.r < rb.w) :
    Length rb = rb.size - rb.r + rb.w := by
  obtain ⟨hb, hr, hw, hf⟩ := h
  unfold Length
  by_cases hwr : rb.w = rb.r
  · have hfl : rb.isFull = true := by
      cases hfl2 : rb.isFull
      · exact absurd ⟨hwr, hfl2⟩ hne
      · rfl
    rw [if_pos hwr, if_pos hfl]
    omega
  · rw [if_neg hwr, if_neg hrw]

lemma Bytes_wrap (rb : RingBuffer) (h : WF rb)
    (hne : ¬(rb.w = rb.r ∧ rb.isFull = false)) (hrw : ¬ rb.r < rb.w) :
    Bytes rb = rb.buf.drop rb.r ++ rb.buf.take rb.w := by
  obtain ⟨hb, hr, hw, hf⟩ := h
  have hA : subList rb.buf rb.r rb.size = rb.buf.drop rb.r := by
    unfold subList
    rw [List.take_of_length_le (by omega)]
  have hB : subList rb.buf 0 rb.w = rb.buf.take rb.w := by
    unfold subList
    rw [List.drop_zero]
  unfold Bytes
  by_cases hwr : rb.w = rb.r
  · have hfl : rb.isFull = true := by
      cases hfl2 : rb.isFull
      · exact absurd ⟨hwr, hfl2⟩ hne
      · rfl
    rw [if_pos hwr, if_pos hfl, hA, hB]
  · rw [if_neg hwr, if_neg hrw, hA, hB]

lemma read_count_spec (rb : RingBuffer) (plen : Nat) (h : WF rb)
    (hne : ¬(rb.w = rb.r ∧ rb.isFull = false)) :
    (read rb plen).2.2.1 = min (Length rb) plen := by
  have hL := Length_wrap rb h hne
  obtain ⟨hb, hr, hw, hf⟩ := h
  unfold read
  rw [if_neg hne]
  by_cases hrw : rb.r < rb.w
  · rw [if_pos hrw]
    unfold Length
    rw [if_neg (by omega), if_pos hrw]
  · rw [if_neg hrw, hL hrw]

lemma read_bytes_spec (rb : RingBuffer) (plen : Nat) (h : WF rb)
    (hne : ¬(rb.w = rb.r ∧ rb.isFull = false)) :
    (read rb plen).2.1 = (Bytes rb).take plen := by
  obtain ⟨hb, hr, hw, hf⟩ := h
  by_cases hrw : rb.r < rb.w
  · have hwr : ¬ rb.w = rb.r := by omega
    unfold read Bytes
    rw [if_neg hne, if_pos hrw, if_neg hwr, if_pos hrw]
    dsimp only
    rw [subList_eq, subList_eq, List.take_take]
    congr 1
    omega
  · have hBy := Bytes_wrap rb ⟨hb, hr, hw, hf⟩ hne hrw
    have hAlen : (rb.buf.drop rb.r).length = rb.size - rb.r := by
      rw [List.length_drop, hb]
    have hB2 : ∀ x, subList rb.buf 0 x = rb.buf.take x := by
      intro x
      unfold subList
      rw [List.drop_zero]
    have hA : subList rb.buf rb.r rb.size = rb.buf.drop rb.r := by
      unfold subList
      rw [List.take_of_length_le (by omega)]
    unfold read
    rw [if_neg hne, if_neg hrw, hBy, List.take_append_eq_append_take, hAlen]
    dsimp only
    rcases le_total plen (rb.size - rb.r + rb.w) with hp | hp
    · rw [min_eq_right hp]
      split
      · rename_i hc
        rw [subList_eq]
        have h0 : plen - (rb.size - rb.r) = 0 := by omega
        rw [h0]
        simp only [List.take_zero, List.append_nil]
        congr 1
        omega
      · rename_i hc
        rw [hA, hB2, List.take_take]
        have hAtake : (rb.buf.drop rb.r).take plen = rb.buf.drop rb.r :=
          List.take_of_length_le (by rw [hAlen]; omega)
        rw [hAtake]
        congr 1
        rw [min_eq_left (by omega)]
    · rw [min_eq_left hp]
      split
      · rename_i hc
        have hw0 : rb.w = 0 := by omega
        rw [subList_eq, hw0]
        simp only [List.take_zero, List.take_nil, List.append_nil]
        have h1 : (rb.buf.drop rb.r).take (rb.r + (rb.size - rb.r + 0) - rb.r) =
            rb.buf.drop rb.r := List.take_of_length_le (by rw [hAlen]; omega)
        have h2 : (rb.buf.drop rb.r).take plen = rb.buf.drop rb.r :=
          List.take_of_length_le (by rw [hAlen]; omega)
        rw [h1, h2]
      · rename_i hc
        rw [hA, hB2, List.take_take]
        have hAtake : (rb.buf.drop rb.r).take plen = rb.buf.drop rb.r :=
          List.take_of_length_le (by rw [hAlen]; omega)
        rw [hAtake]
        congr 1
        have hmin : min (plen - (rb.size - rb.r)) rb.w = rb.w := min_eq_right (by omega)
        rw [hmin]
        congr 1
        omega

lemma readErr_eof (rb : RingBuffer) (he : rb.err = some GoError.eof) :
    readErr rb = if rb.w = rb.r ∧ rb.isFull = false then some GoError.eof else none := by
  unfold readErr
  rw [he]
  simp

lemma readErr_set_r (rb : RingBuffer) (x : Nat) (he : rb.err = some GoError.eof) :
    readErr { rb with r := x, isFull := false } =
      if rb.w = x then some GoError.eof else none := by
  have he2 : ({ rb with r := x, isFull := false } : RingBuffer).err = some GoError.eof := he
  rw [readErr_eof _ he2]
  simp

lemma read_err_spec (rb : RingBuffer) (plen : Nat) (h : WF rb)
    (he : rb.err = some GoError.eof)
    (hne : ¬(rb.w = rb.r ∧ rb.isFull = false)) (hp : 0 < plen) :
    (read rb plen).2.2.2 = none ∨
      ((read rb plen).2.2.2 = some GoError.eof ∧ (read rb plen).2.2.1 = Length rb) := by
  have hL := Length_wrap rb h hne
  obtain ⟨hb, hr, hw, hf⟩ := h
  unfold read
  rw [if_neg hne]
  by_cases hrw : rb.r < rb.w
  · rw [if_pos hrw]
    exact Or.inl rfl
  · rw [if_neg hrw, hL hrw]
    dsimp only
    rw [readErr_set_r rb _ he]
    rcases le_total plen (rb.size - rb.r + rb.w) with hple | hple
    · rw [min_eq_right hple]
      have hmod := mod_two_cases (rb.r + plen) rb.size (by omega)
      by_cases hdr : rb.w = (rb.r + plen) % rb.size
      · refine Or.inr ⟨by rw [if_pos hdr], ?_⟩
        rw [hmod] at hdr
        split at hdr <;> omega
      · exact Or.inl (by rw [if_neg hdr])
    · rw [min_eq_left hple]
      have hmod := mod_two_cases (rb.r + (rb.size - rb.r + rb.w)) rb.size (by omega)
      by_cases hdr : rb.w = (rb.r + (rb.size - rb.r + rb.w)) % rb.size
      · exact Or.inr ⟨by rw [if_pos hdr], rfl⟩
      · exact Or.inl (by rw [if_neg hdr])

/-- C4 counterexample: after CloseWriter, a Read that drains the buffer
through the wrap/full path returns the remaining occupied bytes TOGETHER
with io.EOF, not with a nil error as the claim states. -/
theorem C4_counterexample :
    (Read (CloseWriter (Write (New 2) [7, 8]).1) 2).2.1 = [7, 8] ∧
    (Read (CloseWriter (Write (New 2) [7, 8]).1) 2).2.2.2 = some GoError.eof := by
  decide

/-- C4 amended: after the end-of-stream sentinel is stored, a Read or TryRead
on a drained buffer returns (0, io.EOF); on a non-drained buffer it returns
min(Length, len p) of the remaining occupied bytes in order, with a nil error
or with io.EOF delivered together with the bytes when that read empties the
buffer; and every Write, TryWrite, WriteByte or TryWriteByte of at least one
byte fails with ErrWriteOnClosed leaving the buffer unchanged.  (A zero-length
write returns nil: see the C10 results.) -/
theorem C4_eos_drain (rb : RingBuffer) (plen : Nat) (p : List Nat) (c : Nat)
    (hwf : WF rb) (he : rb.err = some GoError.eof) :
    ((rb.w = rb.r ∧ rb.isFull = false) →
      Read rb plen = (rb, [], 0, some GoError.eof) ∧
      TryRead rb plen = (rb, [], 0, some GoError.eof)) ∧
    (¬(rb.w = rb.r ∧ rb.isFull = false) → 0 < plen →
      (Read rb plen).2.2.1 = min (Length rb) plen ∧
      (Read rb plen).2.1 = (Bytes rb).take plen ∧
      ((Read rb plen).2.2.2 = none ∨
        ((Read rb plen).2.2.2 = some GoError.eof ∧
          (Read rb plen).2.2.1 = Length rb))) ∧
    (p ≠ [] →
      Write rb p = (rb, 0, some GoError.errWriteOnClosed) ∧
      TryWrite rb p = (rb, 0, some GoError.errWriteOnClosed)) ∧
    WriteByte rb c = (rb, some GoError.errWriteOnClosed) ∧
    TryWriteByte rb c = (rb, some GoError.errWriteOnClosed) := by
  refine ⟨?_, ?_, ?_, ?_, ?_⟩
  · intro hd
    have hre : readErr rb = some GoError.eof := by simp [readErr, he, hd]
    exact ⟨by simp [Read, hre], by simp [TryRead, hre]⟩
  · intro hnd hp
    have hre : readErr rb = none := by
      rw [readErr_eof rb he, if_neg hnd]
    have hRd : Read rb plen = read rb plen := by
      unfold Read
      rw [if_neg (by omega), hre, if_neg (by simp)]
    rw [hRd]
    exact ⟨read_count_spec rb plen hwf hnd, read_bytes_spec rb plen hwf hnd,
      read_err_spec rb plen hwf he hnd hp⟩
  · intro hp
    have hlen : ¬ p.length = 0 := by
      simpa [List.length_eq_zero] using hp
    constructor
    · unfold Write
      rw [if_neg hlen]
      simp [he]
    · unfold TryWrite
      rw [if_neg hlen]
      simp [he]
  · unfold WriteByte
    simp [he]
  · unfold TryWriteByte
    simp [he]

theorem C4_eos_drain_witness :
    WF (CloseWriter (Write (New 2) [7, 8]).1) ∧
    (CloseWriter (Write (New 2) [7, 8]).1).err = some GoError.eof ∧
    (¬((CloseWriter (Write (New 2) [7, 8]).1).w = (CloseWriter (Write (New 2) [7, 8]).1).r ∧
        (CloseWriter (Write (New 2) [7, 8]).1).isFull = false) → 0 < 2 →
      (Read (CloseWriter (Write (New 2) [7, 8]).1) 2).2.2.1 =
        min (Length (CloseWriter (Write (New 2) [7, 8]).1)) 2 ∧
      (Read (CloseWriter (Write (New 2) [7, 8]).1) 2).2.1 =
        (Bytes (CloseWriter (Write (New 2) [7, 8]).1)).take 2 ∧
      ((Read (CloseWriter (Write (New 2) [7, 8]).1) 2).2.2.2 = none ∨
        ((Read (CloseWriter (Write (New 2) [7, 8]).1) 2).2.2.2 = some GoError.eof ∧
          (Read (CloseWriter (Write (New 2) [7, 8]).1) 2).2.2.1 =
            Length (CloseWriter (Write (New 2) [7, 8]).1)))) ∧
    ([9] ≠ ([] : List Nat) →
      Write (CloseWriter (Write (New 2) [7, 8]).1) [9] =
        (CloseWriter (Write (New 2) [7, 8]).1, 0, some GoError.errWriteOnClosed) ∧
      TryWrite (CloseWriter (Write (New 2) [7, 8]).1) [9] =
        (CloseWriter (Write (New 2) [7, 8]).1, 0, some GoError.errWriteOnClosed)) :=
  ⟨by decide, by decide,
    (C4_eos_drain (CloseWriter (Write (New 2) [7, 8]).1) 2 [9] 5 (by decide) (by decide)).2.1,
    (C4_eos_drain (CloseWriter (Write (New 2) [7, 8]).1) 2 [9] 5 (by decide) (by decide)).2.2.1⟩

lemma write_err_field (rb : RingBuffer) (p : List Nat) : (write rb p).1.err = rb.err := by
  unfold write
  split <;> rfl

lemma write_err_transient (rb : RingBuffer) (p : List Nat) :
    isTransient (write rb p).2.2 = true := by
  unfold write
  split
  · rfl
  · dsimp only
    split <;> rfl

lemma setErr_transient (rb : RingBuffer) (e : Option GoError) (he : rb.err = none)
    (ht : isTransient e = true) : setErr rb e = (rb, e) := by
  unfold setErr
  simp [he, ht]

lemma Write_core (rb : RingBuffer) (p : List Nat) (he : rb.err = none)
    (hp : ¬ p.length = 0) :
    Write rb p = ((write rb p).1, (write rb p).2.1, (write rb p).2.2) := by
  unfold Write
  rw [if_neg hp, he]
  dsimp only
  rw [setErr_transient _ _ (by rw [write_err_field]; exact he) (write_err_transient rb p)]

lemma TryWrite_core (rb : RingBuffer) (p : List Nat) (he : rb.err = none)
    (hp : ¬ p.length = 0) :
    TryWrite rb p = ((write rb p).1, (write rb p).2.1, (write rb p).2.2) := by
  unfold TryWrite
  rw [if_neg hp, he]
  dsimp only
  rw [setErr_transient _ _ (by rw [write_err_field]; exact he) (write_err_transient rb p)]

lemma availOf_eq_Free (rb : RingBuffer) (h : WF rb) (hful : rb.isFull = false) :
    availOf rb = Free rb := by
  obtain ⟨hb, hr, hw, hf⟩ := h
  unfold availOf Free
  rw [hful]
  split_ifs <;> first | omega | exact (by assumption : False).elim

lemma Free_pos (rb : RingBuffer) (h : WF rb) (hful : rb.isFull = false) :
    0 < Free rb := by
  obtain ⟨hb, hr, hw, hf⟩ := h
  unfold Free
  rw [hful]
  split_ifs <;> first | omega | exact (by assumption : False).elim

/-- C3 counterexample: on a full buffer the free length avail is 0 and any
non-empty payload has len(p) > avail, but Write returns (0, ErrIsFull), not
(avail, ErrTooMuchDataToWrite): the full check of write precedes the
truncation, so the claim's "avail >= 0" does not hold at avail = 0. -/
theorem C3_counterexample :
    Free (Write (New 1) [5]).1 = 0 ∧
    (Write (Write (New 1) [5]).1 [6]).2.2 = some GoError.errIsFull ∧
    some GoError.errIsFull ≠ some GoError.errTooMuchDataToWrite := by decide

/-- C3 amended: for every non-full buffer state (equivalently avail >= 1)
with no sticky error and blocking off, and every payload longer than the free
length, Write copies exactly the first avail bytes (its final state is the
state of writing p.take avail, which itself succeeds with a nil error),
returns the partial count avail together with ErrTooMuchDataToWrite, the
error is not stored as the sticky error, and TryWrite behaves identically
when it acquires the lock. -/
theorem C3_oversized_write (rb : RingBuffer) (p : List Nat)
    (hwf : WF rb) (he : rb.err = none) (_hbl : rb.block = false)
    (hful : rb.isFull = false) (hp : Free rb < p.length) :
    (Write rb p).2.1 = Free rb ∧
    (Write rb p).2.2 = some GoError.errTooMuchDataToWrite ∧
    (Write rb p).1 = (Write rb (p.take (Free rb))).1 ∧
    (Write rb (p.take (Free rb))).2.2 = none ∧
    (Write rb p).1.err = none ∧
    TryWrite rb p = Write rb p := by
  have hful2 : ¬ rb.isFull = true := by
    rw [hful]
    exact Bool.false_ne_true
  have hfp := Free_pos rb hwf hful
  have hp0 : ¬ p.length = 0 := by omega
  have hq1 : qOf rb p = p.take (Free rb) := by
    unfold qOf
    rw [availOf_eq_Free rb hwf hful, if_pos hp]
  have hlenq : (p.take (Free rb)).length = Free rb := by
    rw [List.length_take]
    omega
  have hp0t : ¬ (p.take (Free rb)).length = 0 := by
    rw [hlenq]
    omega
  have hq2 : qOf rb (p.take (Free rb)) = p.take (Free rb) :=
    qOf_of_le _ _ (by rw [hlenq, availOf_eq_Free rb hwf hful])
  have hbuf : buf1Of rb p = buf1Of rb (p.take (Free rb)) := by
    unfold buf1Of
    rw [hq1, hq2]
  have hw1 : w1Of rb p = w1Of rb (p.take (Free rb)) := by
    unfold w1Of
    rw [hq1, hq2]
  have hw2 : w2Of rb p = w2Of rb (p.take (Free rb)) := by
    unfold w2Of
    rw [hw1]
  have hWp : write rb p =
      ({ rb with buf := buf1Of rb p, w := w2Of rb p,
                 isFull := if w2Of rb p = rb.r then true else rb.isFull },
        Free rb, some GoError.errTooMuchDataToWrite) := by
    unfold write
    rw [if_neg hful2, hq1, hlenq, availOf_eq_Free rb hwf hful, if_pos hp]
  have hWt : write rb (p.take (Free rb)) =
      ({ rb with buf := buf1Of rb p, w := w2Of rb p,
                 isFull := if w2Of rb p = rb.r then true else rb.isFull },
        Free rb, none) := by
    unfold write
    rw [if_neg hful2, hq2, hlenq, availOf_eq_Free rb hwf hful, if_neg (lt_irrefl _),
      ← hbuf, ← hw2]
  have hW := Write_core rb p he hp0
  have hW2 := Write_core rb (p.take (Free rb)) he hp0t
  have hT := TryWrite_core rb p he hp0
  refine ⟨?_, ?_, ?_, ?_, ?_, ?_⟩
  · rw [hW, hWp]
  · rw [hW, hWp]
  · rw [hW, hW2, hWp, hWt]
  · rw [hW2, hWt]
  · rw [hW, hWp]
    exact he
  · rw [hT, hW]

theorem C3_oversized_write_witness :
    WF (Write (New 4) [1, 2]).1 ∧ (Write (New 4) [1, 2]).1.err = none ∧
    (Write (New 4) [1, 2]).1.block = false ∧ (Write (New 4) [1, 2]).1.isFull = false ∧
    Free (Write (New 4) [1, 2]).1 < ([7, 8, 9] : List Nat).length ∧
    ((Write (Write (New 4) [1, 2]).1 [7, 8, 9]).2.1 = Free (Write (New 4) [1, 2]).1 ∧
     (Write (Write (New 4) [1, 2]).1 [7, 8, 9]).2.2 = some GoError.errTooMuchDataToWrite ∧
     (Write (Write (New 4) [1, 2]).1 [7, 8, 9]).1 =
       (Write (Write (New 4) [1, 2]).1 ([7, 8, 9].take (Free (Write (New 4) [1, 2]).1))).1 ∧
     (Write (Write (New 4) [1, 2]).1 ([7, 8, 9].take (Free (Write (New 4) [1, 2]).1))).2.2
       = none ∧
     (Write (Write (New 4) [1, 2]).1 [7, 8, 9]).1.err = none ∧
     TryWrite (Write (New 4) [1, 2]).1 [7, 8, 9] = Write (Write (New 4) [1, 2]).1 [7, 8, 9]) :=
  ⟨by decide, by decide, by decide, by decide, by decide,
    C3_oversized_write (Write (New 4) [1, 2]).1 [7, 8, 9]
      (by decide) (by decide) (by decide) (by decide) (by decide)⟩

lemma Free_evict (rb : RingBuffer) (d : Nat) (h : WF rb) (hd1 : 0 < d)
    (hd2 : d ≤ Length rb) : Free (evict rb d) = Free rb + d := by
  obtain ⟨buf, size, r, w, full, err, block⟩ := rb
  obtain ⟨hb, hr, hw, hf⟩ := h
  dsimp only at hb hr hw hf
  unfold evict
  cases full
  · simp [Length] at hd2
    simp only [Free]
    simp only [Bool.false_eq_true, if_false]
    have hmod := mod_two_cases (r + d) size (by split_ifs at hd2 <;> omega)
    rcases lt_or_ge (r + d) size with hlt | hge
    · have heq : (r + d) % size = r + d := by
        rw [hmod]
        exact if_pos hlt
      rw [heq]
      split_ifs at hd2 ⊢ <;> omega
    · have heq : (r + d) % size = r + d - size := by
        rw [hmod]
        exact if_neg (by omega)
      rw [heq]
      split_ifs at hd2 ⊢ <;> omega
  · have hrw : r = w := hf rfl
    subst hrw
    simp [Length] at hd2
    simp only [Free]
    simp only [Bool.false_eq_true, if_false, if_true]
    have hmod := mod_two_cases (r + d) size (by omega)
    rcases lt_or_ge (r + d) size with hlt | hge
    · have heq : (r + d) % size = r + d := by
        rw [hmod]
        exact if_pos hlt
      rw [heq]
      split_ifs at hd2 ⊢ <;> omega
    · have heq : (r + d) % size = r + d - size := by
        rw [hmod]
        exact if_neg (by omega)
      rw [heq]
      split_ifs at hd2 ⊢ <;> omega

lemma wf_evict (rb : RingBuffer) (d : Nat) (h : WF rb) : WF (evict rb d) := by
  obtain ⟨hb, hr, hw, hf⟩ := h
  exact ⟨hb, Nat.mod_lt _ (by omega), hw, by simp [evict]⟩

lemma writeOverwrite_err_field (rb : RingBuffer) (p : List Nat) :
    (writeOverwrite rb p).1.err = rb.err := by
  unfold writeOverwrite
  split
  · rfl
  · split
    · rw [write_err_field]
      rfl
    · rw [write_err_field]

lemma writeOverwrite_core_err (rb : RingBuffer) (p : List Nat) (hwf : WF rb)
    (hp : ¬ p.length = 0) : (writeOverwrite rb p).2.2 = none := by
  unfold writeOverwrite
  split
  · rfl
  · rename_i hbig
    split
    · rename_i hov
      have hd1 : 0 < p.length - Free rb := by omega
      have hd2 : p.length - Free rb ≤ Length rb := by
        have := Free_add_Length rb hwf
        omega
      have hev := Free_evict rb (p.length - Free rb) hwf hd1 hd2
      have hwf1 := wf_evict rb (p.length - Free rb) hwf
      have hful1 : (evict rb (p.length - Free rb)).isFull = false := rfl
      have havail : availOf (evict rb (p.length - Free rb)) = p.length := by
        rw [availOf_eq_Free _ hwf1 hful1, hev]
        omega
      unfold write
      rw [if_neg (by rw [hful1]; exact Bool.false_ne_true)]
      dsimp only
      rw [if_neg (by rw [havail]; omega)]
    · rename_i hov
      have hful : rb.isFull = false := by
        cases hfl : rb.isFull
        · rfl
        · exfalso
          obtain ⟨hb, hr, hw, hf⟩ := hwf
          have hrw := hf hfl
          have : Free rb = 0 := by
            unfold Free
            rw [if_pos hrw.symm, if_pos hfl]
          omega
      unfold write
      rw [if_neg (by rw [hful]; exact Bool.false_ne_true)]
      dsimp only
      rw [if_neg (by rw [availOf_eq_Free rb hwf hful]; omega)]

lemma WriteOverwrite_err (rb : RingBuffer) (p : List Nat) (hwf : WF rb)
    (he : rb.err = none) : (WriteOverwrite rb p).2.2 = none := by
  unfold WriteOverwrite
  split
  · rw [setErr_transient rb none he rfl]
  · rename_i hp
    rw [he]
    dsimp only
    have hcore := writeOverwrite_core_err rb p hwf hp
    rw [setErr_transient _ _ (by rw [writeOverwrite_err_field]; exact he)
      (by rw [hcore]; rfl)]
    exact hcore

/-- C6: on a capacity-4 buffer in overwrite mode, Write("abcd") returns
(4, nil), a further Write("ef") returns (2, nil) advancing the read cursor by
the overflow amount 2, and a 4-byte Read then yields "cdef"; in general an
overwrite-mode write on a well-formed buffer with no sticky error never
returns the full or too-much-data errors (its error is nil). -/
theorem C6_overwrite_eviction (rb : RingBuffer) (p : List Nat)
    (hwf : WF rb) (he : rb.err = none) :
    ((WriteOverwrite (New 4) [97, 98, 99, 100]).2.1 = 4 ∧
     (WriteOverwrite (New 4) [97, 98, 99, 100]).2.2 = none ∧
     (WriteOverwrite (WriteOverwrite (New 4) [97, 98, 99, 100]).1 [101, 102]).2.1 = 2 ∧
     (WriteOverwrite (WriteOverwrite (New 4) [97, 98, 99, 100]).1 [101, 102]).2.2 = none ∧
     (WriteOverwrite (WriteOverwrite (New 4) [97, 98, 99, 100]).1 [101, 102]).1.r =
       ((WriteOverwrite (New 4) [97, 98, 99, 100]).1.r + 2) % 4 ∧
     (Read (WriteOverwrite (WriteOverwrite (New 4) [97, 98, 99, 100]).1 [101, 102]).1
       4).2.1 = [99, 100, 101, 102] ∧
     (Read (WriteOverwrite (WriteOverwrite (New 4) [97, 98, 99, 100]).1 [101, 102]).1
       4).2.2.2 = none) ∧
    (WriteOverwrite rb p).2.2 = none :=
  ⟨by decide, WriteOverwrite_err rb p hwf he⟩

theorem C6_overwrite_eviction_witness :
    WF (New 4) ∧ (New 4).err = none ∧
    (((WriteOverwrite (New 4) [97, 98, 99, 100]).2.1 = 4 ∧
      (WriteOverwrite (New 4) [97, 98, 99, 100]).2.2 = none ∧
      (WriteOverwrite (WriteOverwrite (New 4) [97, 98, 99, 100]).1 [101, 102]).2.1 = 2 ∧
      (WriteOverwrite (WriteOverwrite (New 4) [97, 98, 99, 100]).1 [101, 102]).2.2 = none ∧
      (WriteOverwrite (WriteOverwrite (New 4) [97, 98, 99, 100]).1 [101, 102]).1.r =
        ((WriteOverwrite (New 4) [97, 98, 99, 100]).1.r + 2) % 4 ∧
      (Read (WriteOverwrite (WriteOverwrite (New 4) [97, 98, 99, 100]).1 [101, 102]).1
        4).2.1 = [99, 100, 101, 102] ∧
      (Read (WriteOverwrite (WriteOverwrite (New 4) [97, 98, 99, 100]).1 [101, 102]).1
        4).2.2.2 = none) ∧
     (WriteOverwrite (New 4) [1, 2, 3, 4, 5, 6]).2.2 = none) :=
  ⟨by decide, by decide,
    C6_overwrite_eviction (New 4) [1, 2, 3, 4, 5, 6] (by decide) (by decide)⟩

lemma readErr_none (rb : RingBuffer) (he : rb.err = none) : readErr rb = none := by
  simp [readErr, he]

lemma peek_eq_read (rb : RingBuffer) (plen : Nat) (he : rb.err = none) :
    peek rb plen = ((read rb plen).2.1, (read rb plen).2.2.1, (read rb plen).2.2.2) := by
  have hre := readErr_none rb he
  unfold peek read
  split
  · rfl
  · split
    · rfl
    · dsimp only
      rw [hre]
      simp [readErr, he]

/-- C8: with no sticky error and blocking off, Peek returns exactly the bytes,
count and error that Read would return from the same state, leaves the state
untouched, and a Peek followed by a Read of the same length returns the same
bytes twice. -/
theorem C8_peek_is_read (rb : RingBuffer) (plen : Nat)
    (he : rb.err = none) (_hbl : rb.block = false) :
    (Peek rb plen).1 = rb ∧
    (Peek rb plen).2 = (Read rb plen).2 ∧
    (Read (Peek rb plen).1 plen).2.1 = (Peek rb plen).2.1 := by
  have hre := readErr_none rb he
  have hcore := peek_eq_read rb plen he
  have hP1 : (Peek rb plen).1 = rb := by
    unfold Peek
    split
    · rfl
    · split
      · rfl
      · rfl
  have h2 : (Peek rb plen).2 = (Read rb plen).2 := by
    unfold Peek Read
    by_cases hp0 : plen = 0
    · rw [if_pos hp0, if_pos hp0]
    · rw [if_neg hp0, if_neg hp0, if_neg (by rw [hre]; simp), if_neg (by rw [hre]; simp)]
      dsimp only
      rw [hcore]
  refine ⟨hP1, h2, ?_⟩
  rw [hP1, show (Peek rb plen).2.1 = (Read rb plen).2.1 from congrArg Prod.fst h2]

theorem C8_peek_is_read_witness :
    (Write (New 3) [4, 5]).1.err = none ∧ (Write (New 3) [4, 5]).1.block = false ∧
    ((Peek (Write (New 3) [4, 5]).1 2).1 = (Write (New 3) [4, 5]).1 ∧
     (Peek (Write (New 3) [4, 5]).1 2).2 = (Read (Write (New 3) [4, 5]).1 2).2 ∧
     (Read (Peek (Write (New 3) [4, 5]).1 2).1 2).2.1 = (Peek (Write (New 3) [4, 5]).1 2).2.1) :=
  ⟨by decide, by decide,
    C8_peek_is_read (Write (New 3) [4, 5]).1 2 (by decide) (by decide)⟩

lemma writeByte_eq_write (rb : RingBuffer) (c : Nat) (hwf : WF rb) (he : rb.err = none) :
    writeByte rb c = ((write rb [c]).1, (write rb [c]).2.2) := by
  obtain ⟨hb, hr, hw, hf⟩ := hwf
  unfold writeByte
  rw [if_neg (by rw [he]; simp)]
  by_cases hful : rb.isFull = true
  · rw [if_pos ⟨(hf hful).symm, hful⟩]
    unfold write
    rw [if_pos hful]
  · have hful2 : rb.isFull = false := by
      cases h2 : rb.isFull
      · rfl
      · exact absurd h2 hful
    rw [if_neg (by rw [hful2]; simp)]
    have hav : 1 ≤ availOf rb := by
      rw [availOf_eq_Free rb ⟨hb, hr, hw, hf⟩ hful2]
      exact Free_pos rb ⟨hb, hr, hw, hf⟩ hful2
    have hq : qOf rb [c] = [c] := qOf_of_le rb [c] (by simpa using hav)
    have hw1 : w1Of rb [c] = rb.w + 1 := by
      unfold w1Of
      rw [hq]
      simp only [List.length_singleton]
      split
      · rw [if_pos (by omega)]
      · rfl
    have hbuf : buf1Of rb [c] = rb.buf.set rb.w c := by
      unfold buf1Of
      rw [hq]
      simp only [List.length_singleton]
      split
      · rw [if_pos (by omega)]
        exact goCopy_singleton rb.buf rb.w c (by omega)
      · exact goCopy_singleton rb.buf rb.w c (by omega)
    unfold write
    rw [if_neg hful]
    dsimp only
    have hw2 : w2Of rb [c] = if rb.w + 1 = rb.size then 0 else rb.w + 1 := by
      unfold w2Of
      rw [hw1]
    rw [hbuf, hw2]
    simp only [List.length_singleton]
    have herr : (if availOf rb < 1 then some GoError.errTooMuchDataToWrite else none)
        = (none : Option GoError) := if_neg (by omega)
    rw [herr]

lemma ReadByte_eq_one (rb : RingBuffer) (hwf : WF rb) (he : rb.err = none) :
    (ReadByte rb).1 = (Read rb 1).1 ∧
    (ReadByte rb).2.2 = (Read rb 1).2.2.2 ∧
    ((ReadByte rb).2.2 = none → (Read rb 1).2.1 = [(ReadByte rb).2.1]) := by
  obtain ⟨buf, size, r, w, full, err, block⟩ := rb
  obtain ⟨hb, hr, hw, hf⟩ := hwf
  dsimp only at hb hr hw hf he
  subst he
  have hre : readErr ⟨buf, size, r, w, full, none, block⟩ = none := by
    simp [readErr]
  have hRd : Read ⟨buf, size, r, w, full, none, block⟩ 1
      = read ⟨buf, size, r, w, full, none, block⟩ 1 := by
    unfold Read
    rw [hre]
    simp
  rw [hRd]
  unfold ReadByte
  rw [hre, if_neg (by simp)]
  cases full
  · by_cases hemp : w = r
    · rw [if_pos ⟨hemp, rfl⟩]
      unfold read
      rw [if_pos ⟨hemp, rfl⟩]
      exact ⟨rfl, rfl, fun h => absurd h (by simp)⟩
    · rw [if_neg (by simp [hemp])]
      unfold read
      rw [if_neg (by simp [hemp])]
      by_cases hrw : r < w
      · rw [if_pos hrw]
        dsimp only
        have hn : min (w - r) 1 = 1 := min_eq_right (by omega)
        rw [hn]
        have hm : (r + 1) % size = if r + 1 = size then 0 else r + 1 :=
          (wrap_eq_mod (r + 1) size (by omega)).symm
        rw [hm]
        refine ⟨rfl, by simp [readErr], ?_⟩
        intro h
        rw [subList_singleton buf r (by omega)]
      · rw [if_neg hrw]
        dsimp only
        have hn : min (size - r + w) 1 = 1 := min_eq_right (by omega)
        rw [hn]
        have hm : (r + 1) % size = if r + 1 = size then 0 else r + 1 :=
          (wrap_eq_mod (r + 1) size (by omega)).symm
        rw [hm, if_pos (by omega : r + 1 ≤ size)]
        refine ⟨rfl, by simp [readErr], ?_⟩
        intro h
        rw [subList_singleton buf r (by omega)]
  · have hrw : r = w := hf rfl
    subst hrw
    rw [if_neg (by simp)]
    unfold read
    rw [if_neg (by simp), if_neg (lt_irrefl r)]
    dsimp only
    have hn : min (size - r + r) 1 = 1 := min_eq_right (by omega)
    rw [hn]
    have hm : (r + 1) % size = if r + 1 = size then 0 else r + 1 :=
      (wrap_eq_mod (r + 1) size (by omega)).symm
    rw [hm, if_pos (by omega : r + 1 ≤ size)]
    refine ⟨rfl, by simp [readErr], ?_⟩
    intro h
    rw [subList_singleton buf r (by omega)]

/-- C9: with no sticky error and blocking off, WriteByte(c) returns the same
error and final state as Write([c]) (including ErrIsFull when full), and
ReadByte returns the same error and final state as Read into a one-byte
destination (including ErrIsEmpty when empty), with the same byte on
success. -/
theorem C9_byte_variants (rb : RingBuffer) (c : Nat) (hwf : WF rb)
    (he : rb.err = none) (_hbl : rb.block = false) :
    (WriteByte rb c).1 = (Write rb [c]).1 ∧
    (WriteByte rb c).2 = (Write rb [c]).2.2 ∧
    (ReadByte rb).1 = (Read rb 1).1 ∧
    (ReadByte rb).2.2 = (Read rb 1).2.2.2 ∧
    ((ReadByte rb).2.2 = none → (Read rb 1).2.1 = [(ReadByte rb).2.1]) := by
  have hWB : WriteByte rb c = writeByte rb c := by
    unfold WriteByte
    rw [he]
  have hW := Write_core rb [c] he (by simp)
  have hcore := writeByte_eq_write rb c hwf he
  have hRB := ReadByte_eq_one rb hwf he
  exact ⟨by rw [hWB, hcore, hW], by rw [hWB, hcore, hW], hRB.1, hRB.2.1, hRB.2.2⟩

theorem C9_byte_variants_witness :
    WF (Write (New 2) [4]).1 ∧ (Write (New 2) [4]).1.err = none ∧
    (Write (New 2) [4]).1.block = false ∧
    ((WriteByte (Write (New 2) [4]).1 9).1 = (Write (Write (New 2) [4]).1 [9]).1 ∧
     (WriteByte (Write (New 2) [4]).1 9).2 = (Write (Write (New 2) [4]).1 [9]).2.2 ∧
     (ReadByte (Write (New 2) [4]).1).1 = (Read (Write (New 2) [4]).1 1).1 ∧
     (ReadByte (Write (New 2) [4]).1).2.2 = (Read (Write (New 2) [4]).1 1).2.2.2 ∧
     ((ReadByte (Write (New 2) [4]).1).2.2 = none →
       (Read (Write (New 2) [4]).1 1).2.1 = [(ReadByte (Write (New 2) [4]).1).2.1])) :=
  ⟨by decide, by decide, by decide,
    C9_byte_variants (Write (New 2) [4]).1 9 (by decide) (by decide) (by decide)⟩

lemma readErr_set_r_none (x : RingBuffer) (v : Nat) (he : x.err = none) :
    readErr { x with r := v, isFull := false } = none :=
  readErr_none _ he

lemma read_err_none (x : RingBuffer) (plen : Nat) (he : x.err = none)
    (hne : ¬(x.w = x.r ∧ x.isFull = false)) : (read x plen).2.2.2 = none := by
  unfold read
  rw [if_neg hne]
  split
  · rfl
  · dsimp only
    exact readErr_set_r_none x _ he

lemma c1_core (buf s : List Nat) (c r : Nat)
    (hc : 0 < c) (hbf : buf.length = c) (hrlt : r < c) (hs : s.length = c) :
    (Write ⟨buf, c, r, r, false, none, false⟩ s).2.1 = c ∧
    (Write ⟨buf, c, r, r, false, none, false⟩ s).2.2 = none ∧
    (Read (Write ⟨buf, c, r, r, false, none, false⟩ s).1 c).2.1 = s ∧
    (Read (Write ⟨buf, c, r, r, false, none, false⟩ s).1 c).2.2.1 = c ∧
    (Read (Write ⟨buf, c, r, r, false, none, false⟩ s).1 c).2.2.2 = none := by
  have hav : availOf ⟨buf, c, r, r, false, none, false⟩ = c := by
    unfold availOf
    dsimp only
    rw [if_pos (le_refl r)]
    omega
  have hqs : qOf ⟨buf, c, r, r, false, none, false⟩ s = s :=
    qOf_of_le _ _ (by rw [hav]; omega)
  have hw2 : w2Of ⟨buf, c, r, r, false, none, false⟩ s = r := by
    by_cases hk : r = 0
    · subst hk
      have hw1 : w1Of ⟨buf, c, 0, 0, false, none, false⟩ s = c := by
        unfold w1Of
        dsimp only
        rw [hqs, if_pos (le_refl 0), if_pos (by omega)]
        omega
      unfold w2Of
      rw [hw1]
      simp
    · have hw1 : w1Of ⟨buf, c, r, r, false, none, false⟩ s = r := by
        unfold w1Of
        dsimp only
        rw [hqs, if_pos (le_refl r), if_neg (by omega)]
        omega
      unfold w2Of
      dsimp only
      rw [hw1, if_neg (by omega)]
  have hbuf1 : buf1Of ⟨buf, c, r, r, false, none, false⟩ s
      = s.drop (c - r) ++ s.take (c - r) := by
    by_cases hk : r = 0
    · subst hk
      unfold buf1Of
      dsimp only
      rw [hqs, if_pos (le_refl 0), if_pos (by omega)]
      rw [goCopy_fits buf 0 s (by omega)]
      rw [List.take_zero, List.nil_append, Nat.zero_add]
      have hdrop : buf.drop s.length = [] := List.drop_eq_nil_of_le (by omega)
      rw [hdrop, List.append_nil]
      have h1 : s.drop (c - 0) = [] := List.drop_eq_nil_of_le (by omega)
      have h2 : s.take (c - 0) = s := List.take_of_length_le (by omega)
      rw [h1, h2, List.nil_append]
    · unfold buf1Of
      dsimp only
      rw [hqs, if_pos (le_refl r), if_neg (by omega)]
      have hlt1 : (s.take (c - r)).length = c - r := by
        rw [List.length_take]
        omega
      rw [goCopy_fits buf r (s.take (c - r)) (by rw [hlt1]; omega), hlt1]
      have hdrop : buf.drop (r + (c - r)) = [] := List.drop_eq_nil_of_le (by omega)
      rw [hdrop, List.append_nil]
      have htake_r : (buf.take r).length = r := by
        rw [List.length_take]
        omega
      have hAlen : (buf.take r ++ s.take (c - r)).length = c := by
        rw [List.length_append, htake_r, hlt1]
        omega
      have hlt2 : (s.drop (c - r)).length = r := by
        rw [List.length_drop]
        omega
      rw [goCopy_fits _ 0 (s.drop (c - r)) (by rw [hAlen, hlt2]; omega)]
      rw [List.take_zero, List.nil_append, Nat.zero_add, hlt2,
        List.drop_left' htake_r]
  have hwr : write ⟨buf, c, r, r, false, none, false⟩ s
      = (⟨s.drop (c - r) ++ s.take (c - r), c, r, r, true, none, false⟩, c, none) := by
    unfold write
    rw [if_neg (by simp)]
    dsimp only
    have herr : (if availOf ⟨buf, c, r, r, false, none, false⟩ < s.length
        then some GoError.errTooMuchDataToWrite else none) = (none : Option GoError) :=
      if_neg (by rw [hav]; omega)
    rw [hbuf1, hw2, hqs, herr, hs, if_pos rfl]
  have hWs : Write ⟨buf, c, r, r, false, none, false⟩ s
      = (⟨s.drop (c - r) ++ s.take (c - r), c, r, r, true, none, false⟩, c, none) := by
    rw [Write_core _ s rfl (by omega), hwr]
  have hrot_len : (s.drop (c - r) ++ s.take (c - r)).length = c := by
    rw [List.length_append, List.length_drop, List.length_take]
    omega
  have hwfS1 : WF ⟨s.drop (c - r) ++ s.take (c - r), c, r, r, true, none, false⟩ :=
    ⟨hrot_len, hrlt, hrlt, fun _ => rfl⟩
  have hdl : (s.drop (c - r)).length = r := by
    rw [List.length_drop]
    omega
  have hBytes : Bytes ⟨s.drop (c - r) ++ s.take (c - r), c, r, r, true, none, false⟩ = s := by
    unfold Bytes
    dsimp only
    rw [if_pos rfl, if_pos rfl]
    unfold subList
    rw [List.take_of_length_le (by rw [hrot_len]), List.drop_left' hdl, List.drop_zero,
      List.take_left' hdl, List.take_append_drop]
  have hne : ¬((⟨s.drop (c - r) ++ s.take (c - r), c, r, r, true, none, false⟩ :
      RingBuffer).w = r ∧ (⟨s.drop (c - r) ++ s.take (c - r), c, r, r, true, none,
      false⟩ : RingBuffer).isFull = false) := by
    dsimp only
    simp
  have hLen : Length ⟨s.drop (c - r) ++ s.take (c - r), c, r, r, true, none, false⟩ = c := by
    unfold Length
    dsimp only
    rw [if_pos rfl]
    simp
  have hRd : Read ⟨s.drop (c - r) ++ s.take (c - r), c, r, r, true, none, false⟩ c
      = read ⟨s.drop (c - r) ++ s.take (c - r), c, r, r, true, none, false⟩ c := by
    unfold Read
    rw [if_neg (by omega), readErr_none _ rfl, if_neg (by simp)]
  rw [hWs]
  dsimp only
  rw [hRd]
  refine ⟨rfl, rfl, ?_, ?_, read_err_none _ c rfl hne⟩
  · rw [read_bytes_spec _ c hwfS1 hne, hBytes]
    exact List.take_of_length_le (by omega)
  · rw [read_count_spec _ c hwfS1 hne, hLen]
    exact min_self c

/-- C1: from any empty, error-free state of a capacity-c buffer (c > 0,
cursors equal at any alignment, full flag clear), a non-blocking Write of a
c-byte sequence s returns (c, nil), and a subsequent Read into a c-byte
destination returns (c, nil) with exactly the bytes of s in order, including
when the copy wraps around the end of the backing array. -/
theorem C1_round_trip (rb : RingBuffer) (s : List Nat) (c : Nat)
    (hc : 0 < c) (hsz : rb.size = c) (hbf : rb.buf.length = c)
    (hrw : rb.w = rb.r) (hrlt : rb.r < c) (hful : rb.isFull = false)
    (he : rb.err = none) (hbl : rb.block = false) (hs : s.length = c) :
    (Write rb s).2.1 = c ∧ (Write rb s).2.2 = none ∧
    (Read (Write rb s).1 c).2.1 = s ∧
    (Read (Write rb s).1 c).2.2.1 = c ∧
    (Read (Write rb s).1 c).2.2.2 = none := by
  obtain ⟨buf, size, r, w, full, err, block⟩ := rb
  dsimp only at hsz hbf hrw hrlt hful he hbl
  subst hsz hrw hful he hbl
  exact c1_core buf s size w hc hbf hrlt hs

theorem C1_round_trip_witness :
    0 < 3 ∧
    (RingBuffer.mk [9, 9, 9] 3 1 1 false none false).size = 3 ∧
    ((Write (RingBuffer.mk [9, 9, 9] 3 1 1 false none false) [10, 20, 30]).2.1 = 3 ∧
     (Write (RingBuffer.mk [9, 9, 9] 3 1 1 false none false) [10, 20, 30]).2.2 = none ∧
     (Read (Write (RingBuffer.mk [9, 9, 9] 3 1 1 false none false) [10, 20, 30]).1 3).2.1
       = [10, 20, 30] ∧
     (Read (Write (RingBuffer.mk [9, 9, 9] 3 1 1 false none false) [10, 20, 30]).1 3).2.2.1
       = 3 ∧
     (Read (Write (RingBuffer.mk [9, 9, 9] 3 1 1 false none false) [10, 20, 30]).1 3).2.2.2
       = none) :=
  ⟨by decide, by decide,
    C1_round_trip (RingBuffer.mk [9, 9, 9] 3 1 1 false none false) [10, 20, 30] 3
      (by decide) (by decide) (by decide) (by decide) (by decide) (by decide)
      (by decide) (by decide) (by decide)⟩

end Ringbuffer
